import Mathlib

/-!
# Verification of the orthoseg training-dataset builder

Shallow embedding of `src/orthoseg/prepare_traindatasets.py`.

Conventions of the embedding:
* The training directory is modelled as a list of named directory entries
  (`FS`); files are (name, content) pairs with contents as strings, since the
  vector-file I/O collaborator (`geofile_util`) is external to `src/` and its
  `cmp` is specified as exact content equality.
* CRS coordinates and pixel sizes are rationals (`ℚ`); Python's float `%` is
  modelled as `a - b * ⌊a / b⌋`, which is the value Python computes for a
  positive divisor.
* The imagery fetch (`ows_util.getmap_to_file`) and the per-tile mask step are
  external effects; the build loop consults an oracle `tile : ℕ → TileOutcome`
  giving, for the n-th fetch call of a build, whether the call raised, found
  the file already on disk, or produced a new image (and whether the
  subsequent mask step raised / skipped / wrote).
* `_create_mask` is modelled in detail separately (`_create_mask` below), with
  the rasterizer abstracted by a pixel-coverage predicate.
-/

namespace Orthoseg

/-! ## Decimal digits and Python-style string helpers -/

/-- Decimal digits with structural recursion on a fuel bound (the fuel is
always at least the value, so the fallback branch is unreachable). -/
def natDigitsAux : ℕ → ℕ → List Char
  | 0, n => [Char.ofNat (48 + n)]
  | fuel + 1, n =>
    if n < 10 then [Char.ofNat (48 + n)]
    else natDigitsAux fuel (n / 10) ++ [Char.ofNat (48 + n % 10)]

/-- The decimal digit characters of `n`, most significant first. -/
def natDigits (n : ℕ) : List Char := natDigitsAux n n

/-- Model of the Python format `f"{v:02d}"`: decimal digits padded on the
left with a zero to width two. -/
def fmtVersion (v : ℕ) : String :=
  String.mk (if v < 10 then '0' :: natDigits v else natDigits v)

/-- Name of the staging directory for version `v`
(`f"{training_dir}{os.sep}{dataversion_new:02d}_BUSY"`). -/
def busyName (v : ℕ) : String := fmtVersion v ++ "_BUSY"

/-- Numeric value of a digit list, most significant first. -/
def digitsVal (l : List Char) : ℕ :=
  l.foldl (fun a c => 10 * a + (c.toNat - 48)) 0

/-- Model of Python `int(s)` restricted to the directory-name strings that
occur here: succeeds exactly on nonempty all-digit strings.  (Python `int`
additionally strips whitespace and accepts a sign and `_` separators; none of
those can occur in the directory names the code parses, and on non-digit
names both the code and the model fail.) -/
def pyInt? (s : String) : Option ℕ :=
  if s.data ≠ [] ∧ s.data.all Char.isDigit then some (digitsVal s.data) else none

/-- Model of Python `str.endswith`. -/
def pyEndsWith (s suffix : String) : Bool :=
  decide (suffix.data <:+ s.data)

/-- Model of Python `str.startswith`. -/
def pyStartsWith (s pre : String) : Bool :=
  decide (pre.data <+: s.data)

/-- Does the directory name match the glob pattern `[0-9]*`
(first character a digit)? -/
def digitLead (s : String) : Bool :=
  match s.data with
  | [] => false
  | c :: _ => c.isDigit

/-- Does the directory name match the glob pattern `train_[0-9]*`? -/
def legacyGlobMatch (s : String) : Bool :=
  pyStartsWith s "train_" &&
    (match (s.drop 6).data with
     | [] => false
     | c :: _ => c.isDigit)

/-- `name.split(sep)[1]` for a name matching `train_[0-9]*`: the characters
between the first and second underscore. -/
def legacySplit1 (s : String) : String :=
  (s.drop 6).takeWhile (fun c => c ≠ '_')

/-- Python's string comparison, code point by code point: `l` is less than
or equal to `m`. -/
def charsLe : List Char → List Char → Bool
  | [], _ => true
  | _ :: _, [] => false
  | a :: as, b :: bs =>
    if a.toNat < b.toNat then true
    else if b.toNat < a.toNat then false
    else charsLe as bs

/-- Python `s <= t` on strings. -/
def pyStrLe (s t : String) : Bool := charsLe s.data t.data

/-- The larger of two strings in Python's string order. -/
def strMax (a b : String) : String := if pyStrLe a b then b else a

/-- `sorted(l, reverse=True)[0]` on a nonempty list of strings: the maximum
in Python's string order. -/
def strListMax1 (x : String) (xs : List String) : String :=
  xs.foldl strMax x

/-- The maximum of a nonempty list in a linear order (used for the numeric
maxima of the claims' wording). -/
def listMax1 {α : Type} [LinearOrder α] (x : α) (xs : List α) : α :=
  xs.foldl max x

/-! ## Geometry sampler (lines 74-75, 187-193) -/

/-- Python's `%` for a rational (float) left operand: `a - b * ⌊a / b⌋`
(the remainder with the sign of the divisor). -/
def pymod (a b : ℚ) : ℚ := a - b * (⌊a / b⌋ : ℚ)

/-- Axis-aligned bounding box in CRS units. -/
structure Box where
  xmin : ℚ
  ymin : ℚ
  xmax : ℚ
  ymax : ℚ
deriving DecidableEq, Repr

/-- One record of the label-locations layer: its geometry bounds
(`geom.bounds = (xmin, ymin, xmax, ymax)`), its `traindata_type` tag and
optional `image_layer` override. -/
structure Label where
  ttype : String
  xmin : ℚ
  ymin : ℚ
  xmax : ℚ
  ymax : ℚ
  imageLayer : Option String := none
deriving DecidableEq, Repr

/-- `shapely.geometry.box(...).intersects` for two (closed) axis-aligned
boxes: they intersect iff they overlap or touch in both axes. -/
def boxIntersects (a b : Box) : Bool :=
  decide (a.xmin ≤ b.xmax ∧ b.xmin ≤ a.xmax ∧ a.ymin ≤ b.ymax ∧ b.ymin ≤ a.ymax)

/-! ## The build environment -/

/-- Outcome of the mask step (`_create_mask`, line 234) for a freshly
fetched image: it can raise, return without writing, or write the mask. -/
inductive MaskStep
  | raises
  | skipped
  | written
deriving DecidableEq, Repr

/-- Oracle value for one call of the external imagery-fetch collaborator
(`ows_util.getmap_to_file`, line 218).

Modelled from the spec: the fetch collaborator returns a new file path, or no
path when the file already existed on disk, and failures surface as
exceptions (spec section 6).  `fetched` also carries the outcome of the
subsequent mask step for that image. -/
inductive TileOutcome
  | raiseFetch
  | existed
  | fetched (name : String) (mask : MaskStep)
deriving DecidableEq, Repr

/-- Exception raised inside the per-split tile loop (caught at line 250). -/
inductive LoopErr
  | fetchFailed
  | maskFailed
deriving DecidableEq, Repr

/-- The inputs of one `prepare_traindatasets` call that live outside the
training directory: existence of the two current input files and of the two
mandatory legacy files, the basenames and contents of the input files, the
parsed label locations, the pixel-grid parameters, and the oracle for the
external fetch/mask effects. -/
structure Env where
  llExists : Bool
  ldExists : Bool
  legacyTrainExists : Bool
  legacyValidationExists : Bool
  llName : String
  ldName : String
  llContent : String
  ldContent : String
  labels : List Label
  pixelXSize : ℚ
  pixelYSize : ℚ
  pixelWidth : ℕ
  pixelHeight : ℕ
  tile : ℕ → TileOutcome

/-- Lines 187-193: the candidate tile box for a label geometry.  The
lower-left corner is the geometry's lower-left bound snapped down to the
pixel grid; width and height are `math.fabs(image_pixel_width *
image_pixel_x_size)` (resp. y), computed at lines 74-75. -/
def makeBox (env : Env) (l : Label) : Box :=
  let image_srs_width : ℚ := |((env.pixelWidth : ℚ) * env.pixelXSize)|
  let image_srs_height : ℚ := |((env.pixelHeight : ℚ) * env.pixelYSize)|
  let xmin := l.xmin - pymod l.xmin env.pixelXSize
  let ymin := l.ymin - pymod l.ymin env.pixelYSize
  { xmin := xmin, ymin := ymin,
    xmax := xmin + image_srs_width, ymax := ymin + image_srs_height }

/-! ## Tile builder: the per-split loop (lines 156-252) -/

/-- State threaded through the tile loop of one split: the accepted tile
boxes (`created_images_gdf`), the global index of the next fetch call (used
to consult the oracle), the number of fetch calls made in this split, and
the files written under the staging directory (as `split/subdir/name`
paths). -/
structure LoopState where
  accepted : List Box
  counter : ℕ
  fetches : ℕ
  tiles : List String
deriving Repr

/-- Lines 181-249: loop over the label locations of one split.  A candidate
box intersecting any previously accepted box is skipped with no fetch and no
mask; otherwise the box is accepted and the image is fetched (possibly
raising), and for a newly fetched image the mask step runs (possibly
raising).  Returns the exception, if one was raised, and the final state. -/
def runLabels (env : Env) (split : String) :
    List Label → LoopState → Option LoopErr × LoopState
  | [], st => (none, st)
  | l :: rest, st =>
    let box := makeBox env l
    if st.accepted.any (fun b => boxIntersects b box) then
      runLabels env split rest st
    else
      let st1 : LoopState :=
        { st with accepted := st.accepted ++ [box],
                  counter := st.counter + 1, fetches := st.fetches + 1 }
      match env.tile st.counter with
      | .raiseFetch => (some .fetchFailed, st1)
      | .existed => runLabels env split rest st1
      | .fetched name mask =>
        let st2 : LoopState :=
          { st1 with tiles := st1.tiles ++ [split ++ "/image/" ++ name] }
        match mask with
        | .raises => (some .maskFailed, st2)
        | .skipped => runLabels env split rest st2
        | .written =>
          runLabels env split rest
            { st2 with tiles := st2.tiles ++ [split ++ "/mask/" ++ name] }

/-- Lines 170-177: one split selects the locations tagged with it and starts
from an empty accepted-boxes collection. -/
def runSplit (env : Env) (split : String) (k : ℕ) : Option LoopErr × LoopState :=
  runLabels env split (env.labels.filter (fun l => l.ttype == split))
    { accepted := [], counter := k, fetches := 0, tiles := [] }

/-- Line 156: the three traindata types, in source order. -/
def splitNames : List String := ["train", "validation", "test"]

/-- Lines 156-252: run the splits in order, creating each split's
subdirectories (line 164 order: split dir, mask dir, image dir) before its
loop; an exception in a split's loop aborts the whole build, so later splits
do not run.  Returns (exception?, subdirectories created, files written,
next oracle index). -/
def runSplitsGo (env : Env) :
    List String → ℕ → List String → List String →
      Option LoopErr × List String × List String × ℕ
  | [], k, subs, tiles => (none, subs, tiles, k)
  | s :: rest, k, subs, tiles =>
    let subs1 := subs ++ [s, s ++ "/mask", s ++ "/image"]
    match runSplit env s k with
    | (some e, st) => (some e, subs1, tiles ++ st.tiles, st.counter)
    | (none, st) => runSplitsGo env rest st.counter subs1 (tiles ++ st.tiles)

/-- All three splits, starting from fetch call 0. -/
def runSplitsAll (env : Env) : Option LoopErr × List String × List String × ℕ :=
  runSplitsGo env splitNames 0 [] []

/-! ## The training directory -/

/-- One subdirectory of `training_dir`: its name, its directly contained
files as (basename, content) pairs, its subdirectories and the image/mask
files written below it.  Contents are strings because the vector-file I/O
collaborator compares files by exact content (spec section 6). -/
structure Entry where
  name : String
  files : List (String × String)
  subdirs : List String
  tiles : List String
deriving DecidableEq, Repr

/-- A directory is empty when it contains nothing. -/
def Entry.isEmpty (e : Entry) : Bool :=
  e.files.isEmpty && e.subdirs.isEmpty && e.tiles.isEmpty

/-- Modelled from the spec: `geofile_util.copy(src, destdir)` copies the
source file into the directory under its basename (spec section 6),
overwriting an existing file of that name.  This is the file-map update used
to build the staging directory's file list. -/
def setFile (files : List (String × String)) (name content : String) :
    List (String × String) :=
  files.filter (fun f => f.1 ≠ name) ++ [(name, content)]

/-- Look up a file of the directory by basename.  `getFile e n = some c`
models `os.path.exists` of the copy together with `geofile_util.cmp`
(modelled from the spec: exact content comparison, spec sections 4.1 and 6)
against a current input of content `c`. -/
def Entry.getFile (e : Entry) (name : String) : Option String :=
  (e.files.find? (fun f => f.1 = name)).map Prod.snd

/-- The state `prepare_traindatasets` mutates: the subdirectories of
`training_dir`. -/
abbrev FS := List Entry

/-- Directory lookup by name. -/
def FS.find (fs : FS) (name : String) : Option Entry :=
  List.find? (fun e => e.name = name) fs

/-- `shutil.rmtree` of a stale directory followed by `os.makedirs` and
population: every entry of that name is removed and the new entry appended. -/
def FS.withEntry (fs : FS) (name : String) (e : Entry) : FS :=
  List.filter (fun x => x.name ≠ name) fs ++ [e]

/-- Effect of a successful `os.rename(busy, final)` (line 256): the staging
entry disappears, an existing (necessarily empty, see `renameBlocked`) final
entry is replaced, and the staged content now bears the final name. -/
def FS.promote (fs : FS) (busy final : String) (e : Entry) : FS :=
  List.filter (fun x => x.name ≠ busy && x.name ≠ final) fs ++ [e]

/-- `os.rename(src, dst)` raises `OSError` when `dst` is an existing
non-empty directory (POSIX `rename(2)`); renaming over an existing empty
directory succeeds. -/
def renameBlocked (fs : FS) (name : String) : Bool :=
  fs.any (fun e => e.name = name && !e.isEmpty)

/-- Line 91-93 applied to the entry names: subdirectories matching the glob
`[0-9]*` (first character a digit; the trailing separator in the pattern
restricts the glob to directories, which is all `FS` holds), with those
ending in `_BUSY` removed. -/
def candNames (fs : FS) : List String :=
  (fs.map Entry.name).filter (fun n => digitLead n && !(pyEndsWith n "_BUSY"))

/-- Lines 95-97: legacy directories matching `train_[0-9]*`, minus `_BUSY`. -/
def legacyNames (fs : FS) : List String :=
  (fs.map Entry.name).filter (fun n => legacyGlobMatch n && !(pyEndsWith n "_BUSY"))

/-- `sorted(output_dirs, reverse=True)[0]` when the list is nonempty. -/
def candMax (fs : FS) : Option String :=
  match candNames fs with
  | [] => none
  | c :: cs => some (strListMax1 c cs)

/-- Same for the legacy directory list. -/
def legacyMax (fs : FS) : Option String :=
  match legacyNames fs with
  | [] => none
  | c :: cs => some (strListMax1 c cs)

/-! ## Version resolver and build step (lines 76-258) -/

/-- Exceptions `prepare_traindatasets` can raise, with the message they
carry. -/
inductive BuildError
  | stopInputMissing
  | badVersionDir
  | prepare (inner : LoopErr)
  | renameTargetExists
deriving DecidableEq, Repr

/-- The message attached to each exception.  Line 86 for the missing-input
stop, line 251 for the wrap of a tile-loop exception; the `int()` and
`os.rename` failures propagate the underlying `ValueError`/`OSError`. -/
def BuildError.message : BuildError → String
  | .stopInputMissing => "Stop: input file(s) don't exist"
  | .badVersionDir => "invalid literal for int()"
  | .prepare _ => "Error preparing dataset!"
  | .renameTargetExists => "OSError"

/-- Which return statement a successful call took: line 127 (reuse of the
most recent version) or line 258 (a fresh build). -/
inductive Outcome
  | reused (dir : String) (version : ℕ)
  | built (dir : String) (version : ℕ)
deriving DecidableEq, Repr

instance {ε α : Type} [DecidableEq ε] [DecidableEq α] : DecidableEq (Except ε α) :=
  fun a b =>
    match a, b with
    | .ok x, .ok y =>
      if h : x = y then isTrue (by rw [h]) else isFalse (by simp [h])
    | .error x, .error y =>
      if h : x = y then isTrue (by rw [h]) else isFalse (by simp [h])
    | .ok _, .error _ => isFalse (by simp)
    | .error _, .ok _ => isFalse (by simp)

/-- Outcome of the version-resolution block, lines 89-129. -/
inductive ResolveResult
  | err (e : BuildError)
  | reuse (dir : String) (version : ℕ)
  | build (version : ℕ)
deriving DecidableEq, Repr

/-- Lines 89-129: enumerate candidate version directories; with none, fall
back to the legacy `train_<n>` directories; otherwise parse the
lexicographically greatest name (`sorted(..., reverse=True)[0]`) and either
reuse it - when it holds copies of both input files with content equal to
the current inputs - or build its number plus one. -/
def resolve (fs : FS) (env : Env) : ResolveResult :=
  match candNames fs with
  | [] =>
    match legacyNames fs with
    | [] => .build 1
    | c :: cs =>
      match pyInt? (legacySplit1 (strListMax1 c cs)) with
      | none => .err .badVersionDir
      | some m => .build (m + 1)
  | c :: cs =>
    match pyInt? (strListMax1 c cs) with
    | none => .err .badVersionDir
    | some m =>
      match FS.find fs (strListMax1 c cs) with
      | none => .build (m + 1)
      | some e =>
        if e.getFile env.llName = some env.llContent
            ∧ e.getFile env.ldName = some env.ldContent then
          .reuse (strListMax1 c cs) m
        else
          .build (m + 1)

/-- Lines 138-141: the two input files copied into the staging directory. -/
def copies (env : Env) : List (String × String) :=
  setFile (setFile [] env.llName env.llContent) env.ldName env.ldContent

/-- Lines 131-258 for a fixed new version `v`: create the staging directory
(removing a stale one), copy the inputs, run the three splits, and on full
success rename the staging directory to the final version directory.  On an
exception in a split loop it is re-raised wrapped (line 250-252) and the
staging directory stays; on a blocked rename the `OSError` propagates and
the staging directory also stays. -/
def buildNew (env : Env) (fs : FS) (v : ℕ) : Except BuildError Outcome × FS :=
  match runSplitsAll env with
  | (some e, subs, tiles, _) =>
    (.error (.prepare e),
     fs.withEntry (busyName v)
       { name := busyName v, files := copies env, subdirs := subs, tiles := tiles })
  | (none, subs, tiles, _) =>
    if renameBlocked fs (fmtVersion v) then
      (.error .renameTargetExists,
       fs.withEntry (busyName v)
         { name := busyName v, files := copies env, subdirs := subs, tiles := tiles })
    else
      (.ok (.built (fmtVersion v) v),
       fs.promote (busyName v) (fmtVersion v)
         { name := fmtVersion v, files := copies env, subdirs := subs, tiles := tiles })

/-- Lines 275-277 of `convert_traindata_v1tov2`: if the mandatory legacy
train or validation file is absent the converter returns `False` before
touching anything; otherwise it converts (writing only outside
`training_dir`) and returns `True`. -/
def convert_traindata_v1tov2 (legacyTrainExists legacyValidationExists : Bool) : Bool :=
  legacyTrainExists && legacyValidationExists

/-- Lines 76-258: the whole build step.  Returns the result (exception or
returned `(output_dir, dataversion)`) together with the final state of
`training_dir`. -/
def runBuild (env : Env) (fs : FS) : Except BuildError Outcome × FS :=
  if (!env.llExists || !env.ldExists)
      && !convert_traindata_v1tov2 env.legacyTrainExists env.legacyValidationExists then
    (.error .stopInputMissing, fs)
  else
    match resolve fs env with
    | .err e => (.error e, fs)
    | .reuse d v => (.ok (.reused d v), fs)
    | .build v => buildNew env fs v

/-- The public entry point, with the signature's unused `max_samples`
parameter (line 49; never referenced in the body). -/
def prepare_traindatasets (env : Env) (max_samples : ℕ := 5000) (fs : FS) :
    Except BuildError Outcome × FS :=
  runBuild env fs

/-! ## Mask rasterizer: `_create_mask` (lines 411-474) -/

/-- An affine georeferencing transform (six coefficients). -/
structure Affine where
  a : ℚ
  b : ℚ
  c : ℚ
  d : ℚ
  e : ℚ
  f : ℚ
deriving DecidableEq, Repr

/-- A rasterio dataset profile: pixel dimensions, transform, CRS, band
count, dtype, nodata and the creation options touched by `_create_mask`.
Options that Python deletes from the profile dict are `none` here. -/
structure RasterProfile where
  width : ℕ
  height : ℕ
  transform : Affine
  crs : String
  count : ℕ
  dtype : String
  nodata : Option ℤ
  compress : Option String
  tiled : Option Bool
  interleave : Option String
  photometric : Option String
  sharing : Option String
deriving DecidableEq, Repr

/-- Model of `rasterio.features.rasterize(shapes, fill, default_value,
transform, out_shape)` per its interface: `out_shape` is `(rows, cols)` and
the cell at row `r`, column `c` gets `default_value` when any shape covers
that pixel of the grid given by `transform`, else `fill`.  Pixel coverage is
the collaborator's geometric business and is abstracted as the predicate
`covers`. -/
def rasterize {α : Type} (covers : α → Affine → ℕ → ℕ → Bool) (shapes : List α)
    (fill default_value : ℕ) (transform : Affine) (rows cols : ℕ) :
    List (List ℕ) :=
  (List.range rows).map fun r =>
    (List.range cols).map fun c =>
      if shapes.any (fun g => covers g transform r c) then default_value else fill

/-- Exceptions `_create_mask` can raise: `ZeroDivisionError` at line 464 on
an empty raster, and the `ValueError` rasterio's `write` raises when the
array shape disagrees with the dataset's `(height, width)` shape at
line 467. -/
inductive MaskErr
  | divisionByZero
  | writeShapeMismatch
deriving DecidableEq, Repr

/-- What `_create_mask` returned and wrote: `noop` is the early `return`
(None) at line 425, `notWritten` the `return False`, and `written` carries
the profile and pixel data of the written mask file plus whether the
reference image was copied alongside. -/
inductive MaskResult
  | noop
  | notWritten
  | written (profile : RasterProfile) (data : List (List ℕ)) (imageCopied : Bool)
deriving DecidableEq, Repr

/-- `os.path.splitext(p)[1].lower()`: the final extension, lowercased.
(Intricacies of dots in directory names or leading dots are irrelevant for
the tile file names at hand.) -/
def extnameLower (p : String) : String :=
  if p.data.contains '.' then
    String.mk (('.' :: (p.data.reverse.takeWhile (fun c => c ≠ '.')).reverse).map Char.toLower)
  else ""

/-- Lines 430-452: the output profile derived from the reference image's
profile - band count 1, dtype uint8, LZW compression, nodata 0 - with the
format-specific adjustments for `.tif` and `.jpg`/`.jpeg` outputs. -/
def maskProfile (image_profile : RasterProfile) (ext : String) : RasterProfile :=
  let p0 : RasterProfile :=
    { image_profile with dtype := "uint8", count := 1,
                         compress := some "lzw", nodata := some 0 }
  if ext = ".tif" then { p0 with compress := some "lzw" }
  else if ext = ".jpg" ∨ ext = ".jpeg" then
    { p0 with sharing := none, tiled := none, compress := none,
              interleave := none, photometric := none }
  else p0

/-- Lines 411-474: create the mask for one reference image.
`image_profile` stands for the profile read from `input_image_filepath`;
`output_exists` for `os.path.exists(output_mask_filepath)`;
`has_imagecopy` for `output_imagecopy_filepath` being given.  Note the
source passes `out_shape=(width, height)` at line 457 although the
interface order is `(rows, cols) = (height, width)`. -/
def _create_mask {α : Type} (covers : α → Affine → ℕ → ℕ → Bool)
    (input_vector_label_list : List α) (image_profile : RasterProfile)
    (output_mask_filepath : String) (output_exists : Bool)
    (has_imagecopy : Bool := false) (burn_value : ℕ := 255)
    (minimum_pct_labeled : ℚ := 0) (force : Bool := false) :
    Except MaskErr MaskResult :=
  if force = false ∧ output_exists = true then .ok .noop
  else
    let p1 := maskProfile image_profile (extnameLower output_mask_filepath)
    let burned := rasterize covers input_vector_label_list 0 burn_value
      image_profile.transform p1.width p1.height
    let nb_pixels := p1.width * p1.height
    if nb_pixels = 0 then .error .divisionByZero
    else
      let nb_pixels_data := nb_pixels - (burned.map (fun row => row.count 0)).sum
      if (nb_pixels_data : ℚ) / (nb_pixels : ℚ) ≥ minimum_pct_labeled then
        if burned.length = p1.height ∧ burned.all (fun row => row.length = p1.width) then
          .ok (.written p1 burned has_imagecopy)
        else .error .writeShapeMismatch
      else .ok .notWritten


/-! ## Definitions following the claims' words (for refinement comparison) -/

/-- A purely numeric directory name, as the claims read the glob. -/
def pureNumericName (n : String) : Bool :=
  !n.data.isEmpty && n.data.all Char.isDigit

/-- A legacy name of the exact form `train_<n>` with `<n>` purely numeric. -/
def specLegacyNumeric (n : String) : Bool :=
  pyStartsWith n "train_" && pureNumericName (n.drop 6)

/-- Next version as claim C4 words it: 1 when no purely numeric (non-BUSY)
directory exists (after the legacy fallback), else 1 + the maximum numeric
value found. -/
def specNextVersion (names : List String) : ℕ :=
  match (names.filter (fun n => pureNumericName n && !(pyEndsWith n "_BUSY"))).filterMap pyInt? with
  | [] =>
    match (names.filter (fun n => specLegacyNumeric n && !(pyEndsWith n "_BUSY"))).filterMap
        (fun n => pyInt? (n.drop 6)) with
    | [] => 1
    | x :: xs => listMax1 x xs + 1
  | x :: xs => listMax1 x xs + 1

/-- The most recent version directory as claim C3 words it: among the purely
numeric non-BUSY directory names, the one with the greatest numeric value. -/
def specMostRecent (fs : FS) : Option String :=
  match (fs.map Entry.name).filter (fun n => pureNumericName n && !(pyEndsWith n "_BUSY")) with
  | [] => none
  | x :: xs =>
    some (xs.foldl (fun a n => if (pyInt? a).getD 0 < (pyInt? n).getD 0 then n else a) x)

/-! ## Sequences of builder calls -/

/-- A call result that is not a fresh build: an exception or a reuse
return. -/
inductive NonFresh : Except BuildError Outcome → Prop
  | error (e : BuildError) : NonFresh (.error e)
  | reused (d : String) (v : ℕ) : NonFresh (.ok (.reused d v))

/-- `Reaches fs fs'` holds when `fs'` arises from `fs` through a (possibly
empty) sequence of `prepare_traindatasets` calls none of which completed a
fresh build: failed calls and reuse returns, with arbitrary inputs.  The
builder is the only writer of the training directory (spec section 5). -/
inductive Reaches : FS → FS → Prop
  | refl (fs : FS) : Reaches fs fs
  | step (env : Env) (fs₁ fs₂ fs₃ : FS) (r : Except BuildError Outcome) :
      runBuild env fs₁ = (r, fs₂) → NonFresh r → Reaches fs₂ fs₃ → Reaches fs₁ fs₃

/-! ## Concrete fixtures used by witnesses and counterexamples -/

/-- A baseline environment: both inputs exist, no legacy files, no label
locations, default pixel grid, every fetch finds the file already on disk. -/
def envA : Env :=
  { llExists := true, ldExists := true,
    legacyTrainExists := false, legacyValidationExists := false,
    llName := "loc.gpkg", ldName := "data.gpkg",
    llContent := "LOC1", ldContent := "DATA1",
    labels := [], pixelXSize := 1/4, pixelYSize := 1/4,
    pixelWidth := 512, pixelHeight := 512,
    tile := fun _ => .existed }

/-- `envA` with the label-locations file changed. -/
def envB : Env := { envA with llContent := "LOC2" }

/-- `envA` with one train location and a fetch that raises. -/
def envW : Env :=
  { envA with
      labels := [{ ttype := "train", xmin := 0, ymin := 0, xmax := 10, ymax := 10 }],
      tile := fun _ => .raiseFetch }

/-- `envA` with two far-apart train locations. -/
def envTen : Env :=
  { envA with
      labels := [{ ttype := "train", xmin := 0, ymin := 0, xmax := 10, ymax := 10 },
                 { ttype := "train", xmin := 1000, ymin := 0, xmax := 1010, ymax := 10 }] }

/-- `envA` with the label-locations file absent. -/
def envMissing : Env := { envA with llExists := false }

/-- The split subdirectories a full run of the three splits creates. -/
def subsAll : List String :=
  ["train", "train/mask", "train/image", "validation", "validation/mask",
   "validation/image", "test", "test/mask", "test/image"]

/-- The training directory after `runBuild envA []`. -/
def fs1W : FS :=
  [{ name := "01", files := [("loc.gpkg", "LOC1"), ("data.gpkg", "DATA1")],
     subdirs := subsAll, tiles := [] }]

/-- The training directory after `runBuild envB fs1W`. -/
def fs2W : FS :=
  fs1W ++ [{ name := "02", files := [("loc.gpkg", "LOC2"), ("data.gpkg", "DATA1")],
             subdirs := subsAll, tiles := [] }]

/-- A version directory holding exact copies of `envA`'s inputs. -/
def entry100 : Entry :=
  { name := "100", files := [("loc.gpkg", "LOC1"), ("data.gpkg", "DATA1")],
    subdirs := [], tiles := [] }

/-- Counterexample state for claim C3: versions 99 and 100 exist; the
numerically most recent one (100) holds exact copies of the current
inputs, the lexicographically greatest name ("99") does not. -/
def fsC3 : FS :=
  [{ name := "99", files := [("loc.gpkg", "OLD1"), ("data.gpkg", "OLD2")],
     subdirs := [], tiles := [] },
   entry100]

/-- Counterexample state for claim C4: purely numeric version directories
9 and 10. -/
def fsC4 : FS :=
  [{ name := "10", files := [("x", "y")], subdirs := [], tiles := [] },
   { name := "9", files := [("x", "y")], subdirs := [], tiles := [] }]

/-- The version directory of a previous build of `envA`'s inputs, hence
holding exact copies under their basenames at that time. -/
def entry01 : Entry :=
  { name := "01", files := [("loc.gpkg", "LOC1"), ("data.gpkg", "DATA1")],
    subdirs := [], tiles := [] }

/-- A single existing version directory holding exact copies of `envA`'s
inputs. -/
def fsR : FS := [entry01]

/-- `envA` after renaming the label-locations input file without changing
its content: the basename differs from the copy stored in `entry01`, the
bytes are identical. -/
def envRen : Env := { envA with llName := "loc2.gpkg" }

/-- A coverage predicate burning every pixel. -/
def coversAll : Unit → Affine → ℕ → ℕ → Bool := fun _ _ _ _ => true

/-- A sample affine transform (0.25 m pixels, north-up). -/
def aff0 : Affine := ⟨1/4, 0, 0, 0, -1/4, 0⟩

/-- A 2x2-pixel 3-band reference image profile. -/
def img22 : RasterProfile :=
  { width := 2, height := 2, transform := aff0, crs := "EPSG:31370",
    count := 3, dtype := "uint8", nodata := none, compress := none,
    tiled := none, interleave := none, photometric := none, sharing := none }

/-- The same reference image with a non-square 2x3 pixel grid. -/
def img23 : RasterProfile := { img22 with width := 2, height := 3 }

/-- The profile of the mask `_create_mask` writes for `img22`. -/
def maskP : RasterProfile :=
  { width := 2, height := 2, transform := aff0, crs := "EPSG:31370",
    count := 1, dtype := "uint8", nodata := some 0, compress := some "lzw",
    tiled := none, interleave := none, photometric := none, sharing := none }

/-- A sample label geometry for the geometry-sampler witness. -/
def lC8 : Label := { ttype := "train", xmin := 5/2, ymin := 3/8, xmax := 700, ymax := 600 }

/-! ## Helper lemmas -/

theorem natDigitsAux_ne_nil (fuel n : ℕ) : natDigitsAux fuel n ≠ [] := by
  cases fuel with
  | zero => simp [natDigitsAux]
  | succ fuel =>
    rw [natDigitsAux]
    split
    · simp
    · simp

theorem natDigits_ne_nil (n : ℕ) : natDigits n ≠ [] := natDigitsAux_ne_nil n n

theorem natDigitsAux_all_digit (fuel : ℕ) :
    ∀ n, n ≤ fuel → ∀ c ∈ natDigitsAux fuel n, c.isDigit := by
  induction fuel with
  | zero =>
    intro n hn c hc
    have h0 : n = 0 := Nat.le_zero.mp hn
    subst h0
    simp only [natDigitsAux, List.mem_singleton] at hc
    subst hc
    decide
  | succ fuel ih =>
    intro n hn c hc
    rw [natDigitsAux] at hc
    split at hc
    · rename_i h
      simp only [List.mem_singleton] at hc
      subst hc
      interval_cases n <;> decide
    · rename_i h
      rw [List.mem_append] at hc
      rcases hc with hc | hc
      · have hfuel : n / 10 ≤ fuel :=
          Nat.lt_succ_iff.mp (lt_of_lt_of_le (Nat.div_lt_self (by omega) (by omega)) hn)
        exact ih (n / 10) hfuel c hc
      · simp only [List.mem_singleton] at hc
        subst hc
        have hm : n % 10 < 10 := Nat.mod_lt _ (by omega)
        set m := n % 10 with hmdef
        clear_value m
        interval_cases m <;> decide

theorem natDigits_all_digit (n : ℕ) : ∀ c ∈ natDigits n, c.isDigit :=
  natDigitsAux_all_digit n n (le_refl n)

theorem digitsVal_natDigitsAux (fuel : ℕ) :
    ∀ n, n ≤ fuel → digitsVal (natDigitsAux fuel n) = n := by
  induction fuel with
  | zero =>
    intro n hn
    have h0 : n = 0 := Nat.le_zero.mp hn
    subst h0
    decide
  | succ fuel ih =>
    intro n hn
    rw [natDigitsAux]
    split
    · rename_i h
      interval_cases n <;> decide
    · rename_i h
      have hfuel : n / 10 ≤ fuel :=
        Nat.lt_succ_iff.mp (lt_of_lt_of_le (Nat.div_lt_self (by omega) (by omega)) hn)
      have hrec := ih (n / 10) hfuel
      have hm : n % 10 < 10 := Nat.mod_lt _ (by omega)
      have hchar : (Char.ofNat (48 + n % 10)).toNat = 48 + n % 10 := by
        set m := n % 10 with hmdef
        clear_value m
        interval_cases m <;> decide
      simp only [digitsVal, List.foldl_append, List.foldl_cons, List.foldl_nil] at *
      rw [hrec, hchar]
      omega

theorem digitsVal_natDigits (n : ℕ) : digitsVal (natDigits n) = n :=
  digitsVal_natDigitsAux n n (le_refl n)

theorem fmtVersion_data (v : ℕ) :
    (fmtVersion v).data = if v < 10 then '0' :: natDigits v else natDigits v := rfl

theorem fmtVersion_all_digit (v : ℕ) : ∀ c ∈ (fmtVersion v).data, c.isDigit := by
  rw [fmtVersion_data]
  split
  · intro c hc
    rcases List.mem_cons.mp hc with h | h
    · subst h; decide
    · exact natDigits_all_digit v c h
  · exact natDigits_all_digit v

theorem pyInt?_fmtVersion (v : ℕ) : pyInt? (fmtVersion v) = some v := by
  have hne : (fmtVersion v).data ≠ [] := by
    rw [fmtVersion_data]
    split
    · simp
    · exact natDigits_ne_nil v
  have hall : (fmtVersion v).data.all Char.isDigit = true := by
    rw [List.all_eq_true]
    exact fmtVersion_all_digit v
  unfold pyInt?
  rw [if_pos ⟨hne, hall⟩]
  refine congrArg some ?_
  rw [fmtVersion_data]
  split
  · show digitsVal ('0' :: natDigits v) = v
    have h1 : digitsVal ('0' :: natDigits v)
        = (natDigits v).foldl (fun a c => 10 * a + (c.toNat - 48)) (10 * 0 + ('0'.toNat - 48)) := rfl
    have h0 : 10 * 0 + ('0'.toNat - 48) = 0 := by decide
    rw [h1, h0]
    exact digitsVal_natDigits v
  · exact digitsVal_natDigits v

theorem pyEndsWith_append (s t : String) : pyEndsWith (s ++ t) t = true := by
  unfold pyEndsWith
  rw [decide_eq_true_eq, String.data_append]
  exact List.suffix_append _ _

theorem busyName_isBusy (v : ℕ) : pyEndsWith (busyName v) "_BUSY" = true :=
  pyEndsWith_append _ _

theorem fmtVersion_not_busy (v : ℕ) : pyEndsWith (fmtVersion v) "_BUSY" = false := by
  unfold pyEndsWith
  rw [decide_eq_false_iff_not]
  intro hsuf
  have hmem : '_' ∈ (fmtVersion v).data := hsuf.subset (by decide)
  have := fmtVersion_all_digit v '_' hmem
  simp at this

theorem digitLead_fmtVersion (v : ℕ) : digitLead (fmtVersion v) = true := by
  unfold digitLead
  rcases h : (fmtVersion v).data with _ | ⟨c, cs⟩
  · have : (fmtVersion v).data ≠ [] := by
      rw [fmtVersion_data]
      split
      · simp
      · exact natDigits_ne_nil v
    exact absurd h this
  · have : c ∈ (fmtVersion v).data := by rw [h]; exact List.mem_cons_self _ _
    exact fmtVersion_all_digit v c this

theorem fmtVersion_ne_busyName (v w : ℕ) : fmtVersion v ≠ busyName w := by
  intro h
  have h1 := busyName_isBusy w
  rw [← h] at h1
  rw [fmtVersion_not_busy v] at h1
  exact Bool.false_ne_true h1

theorem fmtVersion_inj {v w : ℕ} (h : fmtVersion v = fmtVersion w) : v = w := by
  have hv := pyInt?_fmtVersion v
  have hw := pyInt?_fmtVersion w
  rw [h] at hv
  rw [hv] at hw
  exact Option.some.inj hw

/-! ### The string order used by `sorted` -/

theorem char_toNat_inj {a b : Char} (h : a.toNat = b.toNat) : a = b :=
  Char.eq_of_val_eq (UInt32.eq_of_toBitVec_eq (BitVec.toNat_injective h))

theorem charsLe_refl (l : List Char) : charsLe l l = true := by
  induction l with
  | nil => rfl
  | cons a as ih =>
    unfold charsLe
    rw [if_neg (Nat.lt_irrefl _), if_neg (Nat.lt_irrefl _)]
    exact ih

theorem charsLe_total (l m : List Char) : charsLe l m = true ∨ charsLe m l = true := by
  induction l generalizing m with
  | nil => left; rfl
  | cons a as ih =>
    cases m with
    | nil => right; rfl
    | cons b bs =>
      unfold charsLe
      rcases Nat.lt_trichotomy a.toNat b.toNat with h | h | h
      · left; rw [if_pos h]
      · rw [if_neg (by omega), if_neg (by omega), if_neg (by omega), if_neg (by omega)]
        exact ih bs
      · right; rw [if_pos h]

theorem charsLe_antisymm {l m : List Char} (h1 : charsLe l m = true)
    (h2 : charsLe m l = true) : l = m := by
  induction l generalizing m with
  | nil =>
    cases m with
    | nil => rfl
    | cons b bs => exact absurd h2 (by simp [charsLe])
  | cons a as ih =>
    cases m with
    | nil => exact absurd h1 (by simp [charsLe])
    | cons b bs =>
      unfold charsLe at h1 h2
      rcases Nat.lt_trichotomy a.toNat b.toNat with h | h | h
      · rw [if_neg (by omega), if_pos h] at h2
        exact absurd h2 (by simp)
      · rw [if_neg (by omega), if_neg (by omega)] at h1
        rw [if_neg (by omega), if_neg (by omega)] at h2
        rw [char_toNat_inj h, ih h1 h2]
      · rw [if_neg (by omega), if_pos h] at h1
        exact absurd h1 (by simp)

theorem charsLe_trans {l m k : List Char} (h1 : charsLe l m = true)
    (h2 : charsLe m k = true) : charsLe l k = true := by
  induction l generalizing m k with
  | nil => rfl
  | cons a as ih =>
    cases m with
    | nil => exact absurd h1 (by simp [charsLe])
    | cons b bs =>
      cases k with
      | nil => exact absurd h2 (by simp [charsLe])
      | cons c cs =>
        unfold charsLe at h1 h2 ⊢
        rcases Nat.lt_trichotomy a.toNat b.toNat with hab | hab | hab <;>
          rcases Nat.lt_trichotomy b.toNat c.toNat with hbc | hbc | hbc
        · rw [if_pos (by omega)]
        · rw [if_pos (by omega)]
        · rw [if_neg (by omega), if_pos hbc] at h2
          exact absurd h2 (by simp)
        · rw [if_pos (by omega)]
        · rw [if_neg (by omega), if_neg (by omega)] at h1 h2
          rw [if_neg (by omega), if_neg (by omega)]
          exact ih h1 h2
        · rw [if_neg (by omega), if_pos hbc] at h2
          exact absurd h2 (by simp)
        · rw [if_neg (by omega), if_pos hab] at h1
          exact absurd h1 (by simp)
        · rw [if_neg (by omega), if_pos hab] at h1
          exact absurd h1 (by simp)
        · rw [if_neg (by omega), if_pos hab] at h1
          exact absurd h1 (by simp)

theorem pyStrLe_refl (s : String) : pyStrLe s s = true := charsLe_refl _

theorem pyStrLe_total (s t : String) : pyStrLe s t = true ∨ pyStrLe t s = true :=
  charsLe_total _ _

theorem pyStrLe_antisymm {s t : String} (h1 : pyStrLe s t = true)
    (h2 : pyStrLe t s = true) : s = t := by
  cases s
  cases t
  exact congrArg String.mk (charsLe_antisymm h1 h2)

theorem pyStrLe_trans {s t u : String} (h1 : pyStrLe s t = true)
    (h2 : pyStrLe t u = true) : pyStrLe s u = true :=
  charsLe_trans h1 h2

theorem strMax_choice (a b : String) : strMax a b = a ∨ strMax a b = b := by
  unfold strMax
  split
  · right; rfl
  · left; rfl

theorem pyStrLe_strMax_left (a b : String) : pyStrLe a (strMax a b) = true := by
  unfold strMax
  split
  · assumption
  · exact pyStrLe_refl a

theorem pyStrLe_strMax_right (a b : String) : pyStrLe b (strMax a b) = true := by
  unfold strMax
  split
  · exact pyStrLe_refl b
  · rename_i h
    rcases pyStrLe_total a b with h1 | h1
    · exact absurd h1 h
    · exact h1

theorem strListMax1_mem (x : String) (xs : List String) :
    strListMax1 x xs ∈ x :: xs := by
  induction xs generalizing x with
  | nil => simp [strListMax1]
  | cons y ys ih =>
    have h := ih (strMax x y)
    unfold strListMax1 at h ⊢
    rw [List.foldl_cons]
    rcases List.mem_cons.mp h with h1 | h1
    · rcases strMax_choice x y with h2 | h2
      · rw [h1, h2]; simp
      · rw [h1, h2]; simp
    · simp [h1]

theorem strListMax1_ub (x : String) (xs : List String) :
    ∀ y ∈ x :: xs, pyStrLe y (strListMax1 x xs) = true := by
  induction xs generalizing x with
  | nil =>
    intro y hy
    simp only [List.mem_singleton] at hy
    subst hy
    exact pyStrLe_refl y
  | cons z zs ih =>
    intro y hy
    unfold strListMax1
    rw [List.foldl_cons]
    have h := ih (strMax x z)
    rcases List.mem_cons.mp hy with h1 | h1
    · subst h1
      exact pyStrLe_trans (pyStrLe_strMax_left y z) (h _ (List.mem_cons_self _ _))
    · rcases List.mem_cons.mp h1 with h2 | h2
      · subst h2
        exact pyStrLe_trans (pyStrLe_strMax_right x y) (h _ (List.mem_cons_self _ _))
      · exact h y (List.mem_cons_of_mem _ h2)

theorem boxIntersects_symm (a b : Box) : boxIntersects a b = boxIntersects b a := by
  unfold boxIntersects
  rw [decide_eq_decide]
  tauto

/-- Invariant of the tile loop: accepted boxes stay pairwise non-intersecting
and every accepted box costs exactly one fetch call. -/
theorem runLabels_invariant (env : Env) (split : String) (labels : List Label)
    (st : LoopState)
    (h1 : st.accepted.Pairwise (fun a b => boxIntersects a b = false ∧ boxIntersects b a = false))
    (h2 : st.fetches = st.accepted.length) :
    (runLabels env split labels st).2.accepted.Pairwise
        (fun a b => boxIntersects a b = false ∧ boxIntersects b a = false)
    ∧ (runLabels env split labels st).2.fetches
        = (runLabels env split labels st).2.accepted.length := by
  induction labels generalizing st with
  | nil => exact ⟨h1, h2⟩
  | cons l rest ih =>
    rw [runLabels]
    split
    · exact ih st h1 h2
    · rename_i hnot
      have hfalse : st.accepted.any (fun b => boxIntersects b (makeBox env l)) = false :=
        eq_false_of_ne_true hnot
      have hpair1 : (st.accepted ++ [makeBox env l]).Pairwise
          (fun a b => boxIntersects a b = false ∧ boxIntersects b a = false) := by
        rw [List.pairwise_append]
        refine ⟨h1, List.pairwise_singleton _ _, ?_⟩
        intro a ha b hb
        rw [List.mem_singleton] at hb
        subst hb
        have hne := List.any_eq_false.mp hfalse a ha
        have hfa : boxIntersects a (makeBox env l) = false :=
          eq_false_of_ne_true hne
        exact ⟨hfa, by rw [boxIntersects_symm]; exact hfa⟩
      have hlen1 : st.fetches + 1 = (st.accepted ++ [makeBox env l]).length := by
        rw [List.length_append, List.length_singleton, h2]
      split
      · exact ⟨hpair1, hlen1⟩
      · exact ih _ hpair1 hlen1
      · split
        · exact ⟨hpair1, hlen1⟩
        · exact ih _ hpair1 hlen1
        · exact ih _ hpair1 hlen1

/-- Case analysis of a `.build` result of the version resolver. -/
theorem resolve_build_cases (fs : FS) (env : Env) (v : ℕ) (h : resolve fs env = .build v) :
    (candNames fs = [] ∧ legacyNames fs = [] ∧ v = 1)
    ∨ (candNames fs = [] ∧ ∃ c cs m, legacyNames fs = c :: cs
        ∧ pyInt? (legacySplit1 (strListMax1 c cs)) = some m ∧ v = m + 1)
    ∨ (∃ c cs m, candNames fs = c :: cs ∧ pyInt? (strListMax1 c cs) = some m ∧ v = m + 1) := by
  unfold resolve at h
  split at h
  next x1 hc =>
    split at h
    next x2 hl =>
      left
      exact ⟨hc, hl, (ResolveResult.build.inj h).symm⟩
    next x2 c cs hl =>
      split at h
      next x3 hp => exact absurd h (by simp)
      next x3 m hp =>
        right; left
        exact ⟨hc, c, cs, m, hl, hp, (ResolveResult.build.inj h).symm⟩
  next x1 c cs hc =>
    split at h
    next x2 hp => exact absurd h (by simp)
    next x2 m hp =>
      split at h
      next x3 hf =>
        right; right
        exact ⟨c, cs, m, hc, hp, (ResolveResult.build.inj h).symm⟩
      next x3 e hf =>
        split at h
        next hcmp => exact absurd h (by simp)
        next hcmp =>
          right; right
          exact ⟨c, cs, m, hc, hp, (ResolveResult.build.inj h).symm⟩

/-! ## Claims -/

/-- C8: for every label geometry the candidate tile box is
`xmin = geom.xmin - (geom.xmin mod pixel_x_size)` (analogously for y),
`xmax = xmin + pixel_width * pixel_x_size`,
`ymax = ymin + pixel_height * pixel_y_size`; the lower-left corner lies on
the pixel grid; and only the lower-left bounds of the geometry matter, so a
geometry larger than one tile still yields this single tile. -/
theorem claim8_tile_box (env : Env) (l : Label)
    (hx : 0 < env.pixelXSize) (hy : 0 < env.pixelYSize) :
    makeBox env l =
      { xmin := l.xmin - pymod l.xmin env.pixelXSize,
        ymin := l.ymin - pymod l.ymin env.pixelYSize,
        xmax := l.xmin - pymod l.xmin env.pixelXSize
          + (env.pixelWidth : ℚ) * env.pixelXSize,
        ymax := l.ymin - pymod l.ymin env.pixelYSize
          + (env.pixelHeight : ℚ) * env.pixelYSize }
    ∧ (∃ kx : ℤ, (makeBox env l).xmin = (kx : ℚ) * env.pixelXSize)
    ∧ (∃ ky : ℤ, (makeBox env l).ymin = (ky : ℚ) * env.pixelYSize)
    ∧ ∀ l' : Label, l'.xmin = l.xmin → l'.ymin = l.ymin →
        makeBox env l' = makeBox env l := by
  have hax : |((env.pixelWidth : ℚ) * env.pixelXSize)|
      = (env.pixelWidth : ℚ) * env.pixelXSize :=
    abs_of_nonneg (mul_nonneg (Nat.cast_nonneg _) hx.le)
  have hay : |((env.pixelHeight : ℚ) * env.pixelYSize)|
      = (env.pixelHeight : ℚ) * env.pixelYSize :=
    abs_of_nonneg (mul_nonneg (Nat.cast_nonneg _) hy.le)
  refine ⟨?_, ?_, ?_, ?_⟩
  · simp only [makeBox, hax, hay]
  · refine ⟨⌊l.xmin / env.pixelXSize⌋, ?_⟩
    simp only [makeBox, pymod]
    ring
  · refine ⟨⌊l.ymin / env.pixelYSize⌋, ?_⟩
    simp only [makeBox, pymod]
    ring
  · intro l' hx' hy'
    simp only [makeBox, hx', hy']

/-- Witness for C8 at a concrete pixel grid and geometry. -/
theorem claim8_witness :
    (0 : ℚ) < envA.pixelXSize ∧ (0 : ℚ) < envA.pixelYSize
    ∧ ∃ kx : ℤ, (makeBox envA lC8).xmin = (kx : ℚ) * envA.pixelXSize :=
  ⟨by norm_num [envA], by norm_num [envA],
   (claim8_tile_box envA lC8 (by norm_num [envA]) (by norm_num [envA])).2.1⟩

/-- C5: within one split the accepted tile boxes are pairwise
non-intersecting (in both orders), every accepted box corresponds to exactly
one fetch call - skipped candidates produce no fetch and no mask - and the
accepted collection starts empty for each split. -/
theorem claim5_split_nonoverlap (env : Env) (split : String) (k : ℕ) :
    (runSplit env split k).2.accepted.Pairwise
        (fun a b => boxIntersects a b = false ∧ boxIntersects b a = false)
    ∧ (runSplit env split k).2.fetches = (runSplit env split k).2.accepted.length
    ∧ runSplit env split k
        = runLabels env split (env.labels.filter (fun l => l.ttype == split))
            { accepted := [], counter := k, fetches := 0, tiles := [] } := by
  have h := runLabels_invariant env split
    (env.labels.filter (fun l => l.ttype == split))
    { accepted := [], counter := k, fetches := 0, tiles := [] }
    List.Pairwise.nil rfl
  exact ⟨h.1, h.2, rfl⟩

/-- C10: `max_samples` has no effect - the call result is independent of it,
the number of fetches per split equals the number of accepted
(non-overlapping) locations, and a concrete run with `max_samples = 0` still
accepts two tiles, so no upper bound is imposed. -/
theorem claim10_max_samples_no_effect :
    (∀ (env : Env) (m₁ m₂ : ℕ) (fs : FS),
      prepare_traindatasets env m₁ fs = prepare_traindatasets env m₂ fs)
    ∧ (∀ (env : Env) (split : String) (k : ℕ),
        (runSplit env split k).2.fetches = (runSplit env split k).2.accepted.length)
    ∧ (prepare_traindatasets envTen 0 []
        = prepare_traindatasets envTen 5000 []
      ∧ (runSplit envTen "train" 0).2.accepted.length = 2) := by
  refine ⟨fun env m₁ m₂ fs => rfl, fun env split k => ?_, rfl, ?_⟩
  · exact (runLabels_invariant env split
      (env.labels.filter (fun l => l.ttype == split))
      { accepted := [], counter := k, fetches := 0, tiles := [] }
      List.Pairwise.nil rfl).2
  · norm_num [runSplit, runLabels, makeBox, pymod, boxIntersects, envTen, envA]

/-- C9: with either input file missing and a legacy conversion that finds
nothing to convert (the converter returns `False` rather than failing), the
build raises before any staging directory is created or any storage is
touched. -/
theorem claim9_missing_input (env : Env) (fs : FS)
    (h1 : env.llExists = false ∨ env.ldExists = false)
    (h2 : env.legacyTrainExists = false ∨ env.legacyValidationExists = false) :
    runBuild env fs = (.error .stopInputMissing, fs)
    ∧ convert_traindata_v1tov2 env.legacyTrainExists env.legacyValidationExists = false := by
  have hc : convert_traindata_v1tov2 env.legacyTrainExists env.legacyValidationExists
      = false := by
    unfold convert_traindata_v1tov2
    rcases h2 with h | h <;> simp [h]
  refine ⟨?_, hc⟩
  unfold runBuild
  rcases h1 with h | h <;> simp [h, hc]

/-- Witness for C9: missing label-locations file, no legacy files. -/
theorem claim9_witness :
    envMissing.llExists = false
    ∧ runBuild envMissing [] = (.error .stopInputMissing, []) :=
  ⟨rfl, (claim9_missing_input envMissing [] (Or.inl rfl) (Or.inl rfl)).1⟩

/-- C7 (code bug): the fraction gate itself is implemented as specified -
below the minimum nothing is written and `False` is returned - but on the
"written" branch the source passes `out_shape=(width, height)` to the
rasterizer although the interface order is `(rows, cols)`, so for any
non-square reference image the mask array is transposed and the write raises
a shape-mismatch `ValueError` instead of writing the mask and returning
`True`.  Concretely: a 2x3 image fully covered by labels (fraction 1 above
the minimum 0) raises; the same call on a square 2x2 image writes and
succeeds; an uncovered square image below a 0.5 minimum reports
not-written. -/
theorem claim7_fraction_gate_bug :
    _create_mask coversAll [()] img23 "mask.tif" false = .error .writeShapeMismatch
    ∧ _create_mask coversAll [()] img22 "mask.tif" false
        = .ok (.written maskP [[255, 255], [255, 255]] false)
    ∧ _create_mask coversAll ([] : List Unit) img22 "mask.tif" false false 255 (1/2) false
        = .ok .notWritten := by
  have hext : extnameLower "mask.tif" = ".tif" := by decide
  have hr23 : rasterize coversAll [()] 0 255 aff0 2 3
      = [[255, 255, 255], [255, 255, 255]] := by decide
  have hr22 : rasterize coversAll [()] 0 255 aff0 2 2 = [[255, 255], [255, 255]] := by decide
  have hr22e : rasterize coversAll ([] : List Unit) 0 255 aff0 2 2
      = [[0, 0], [0, 0]] := by decide
  refine ⟨?_, ?_, ?_⟩
  · unfold _create_mask
    norm_num [maskProfile, img23, img22, hext, hr23]
  · unfold _create_mask
    norm_num [maskProfile, img22, hext, hr22, maskP]
  · unfold _create_mask
    norm_num [maskProfile, img22, hext, hr22e]

/-- C4 (counterexample): with purely numeric version directories 9 and 10
present, the claim's resolver ("1 + the maximum numeric name") predicts
version 11, but the source sorts names as strings, parses
`sorted(...)[0] = "9"` and computes version 10. -/
theorem claim4_counterexample :
    resolve fsC4 envA = .build 10
    ∧ specNextVersion (fsC4.map Entry.name) = 11
    ∧ (10 : ℕ) ≠ 11 := by decide

/-- C4 (amended): the resolver enumerates digit-leading (not necessarily
purely numeric) non-BUSY directory names, falls back to `train_<n>` names
when there are none, and returns 1 with no directory at all, else 1 + the
Python-int value of the lexicographically greatest name (raising when that
name does not parse). -/
theorem claim4_amended_resolver (fs : FS) (env : Env) (v : ℕ)
    (h : resolve fs env = .build v) :
    (candMax fs = none ∧ legacyMax fs = none ∧ v = 1)
    ∨ (candMax fs = none
        ∧ ∃ t m, legacyMax fs = some t ∧ pyInt? (legacySplit1 t) = some m ∧ v = m + 1)
    ∨ (∃ t m, candMax fs = some t ∧ pyInt? t = some m ∧ v = m + 1) := by
  rcases resolve_build_cases fs env v h with
    ⟨h1, h2, h3⟩ | ⟨h1, c, cs, m, h2, h3, h4⟩ | ⟨c, cs, m, h1, h2, h3⟩
  · left
    refine ⟨?_, ?_, h3⟩
    · unfold candMax; rw [h1]
    · unfold legacyMax; rw [h2]
  · right; left
    refine ⟨?_, strListMax1 c cs, m, ?_, h3, h4⟩
    · unfold candMax; rw [h1]
    · unfold legacyMax; rw [h2]
  · right; right
    refine ⟨strListMax1 c cs, m, ?_, h2, h3⟩
    unfold candMax; rw [h1]

/-- Witness for the amended C4 at the counterexample state. -/
theorem claim4_amended_witness :
    ∃ t m, candMax fsC4 = some t ∧ pyInt? t = some m ∧ 10 = m + 1 := by
  rcases claim4_amended_resolver fsC4 envA 10 (by decide) with ⟨h1, _⟩ | ⟨h1, _⟩ | h
  · exact absurd h1 (by decide)
  · exact absurd h1 (by decide)
  · exact h

theorem maskProfile_width (img : RasterProfile) (ext : String) :
    (maskProfile img ext).width = img.width := by
  unfold maskProfile
  split
  · rfl
  · split <;> rfl

theorem maskProfile_height (img : RasterProfile) (ext : String) :
    (maskProfile img ext).height = img.height := by
  unfold maskProfile
  split
  · rfl
  · split <;> rfl

theorem maskProfile_transform (img : RasterProfile) (ext : String) :
    (maskProfile img ext).transform = img.transform := by
  unfold maskProfile
  split
  · rfl
  · split <;> rfl

theorem maskProfile_crs (img : RasterProfile) (ext : String) :
    (maskProfile img ext).crs = img.crs := by
  unfold maskProfile
  split
  · rfl
  · split <;> rfl

theorem maskProfile_count (img : RasterProfile) (ext : String) :
    (maskProfile img ext).count = 1 := by
  unfold maskProfile
  split
  · rfl
  · split <;> rfl

theorem maskProfile_dtype (img : RasterProfile) (ext : String) :
    (maskProfile img ext).dtype = "uint8" := by
  unfold maskProfile
  split
  · rfl
  · split <;> rfl

theorem maskProfile_nodata (img : RasterProfile) (ext : String) :
    (maskProfile img ext).nodata = some 0 := by
  unfold maskProfile
  split
  · rfl
  · split <;> rfl

theorem rasterize_length {α : Type} (covers : α → Affine → ℕ → ℕ → Bool)
    (shapes : List α) (fill dv : ℕ) (tr : Affine) (rows cols : ℕ) :
    (rasterize covers shapes fill dv tr rows cols).length = rows := by
  simp [rasterize]

theorem rasterize_row_length {α : Type} (covers : α → Affine → ℕ → ℕ → Bool)
    (shapes : List α) (fill dv : ℕ) (tr : Affine) (rows cols : ℕ) :
    ∀ row ∈ rasterize covers shapes fill dv tr rows cols, row.length = cols := by
  intro row hrow
  unfold rasterize at hrow
  rw [List.mem_map] at hrow
  obtain ⟨r, _, hr⟩ := hrow
  rw [← hr]
  simp

theorem rasterize_entry {α : Type} (covers : α → Affine → ℕ → ℕ → Bool)
    (shapes : List α) (fill dv : ℕ) (tr : Affine) (rows cols : ℕ)
    {r c : ℕ} (hr : r < rows) (hc : c < cols) :
    ((rasterize covers shapes fill dv tr rows cols).getD r []).getD c 0
      = if shapes.any (fun g => covers g tr r c) then dv else fill := by
  have h1 : (rasterize covers shapes fill dv tr rows cols).getD r []
      = (List.range cols).map
          (fun c => if shapes.any (fun g => covers g tr r c) then dv else fill) := by
    unfold rasterize
    rw [List.getD_eq_getElem?_getD, List.getElem?_map, List.getElem?_range hr]
    rfl
  rw [h1, List.getD_eq_getElem?_getD, List.getElem?_map, List.getElem?_range hc]
  rfl

/-- C6: every mask `_create_mask` actually writes has the pixel dimensions,
affine transform and CRS of its reference image, is single-band 8-bit with
nodata 0, and holds the burn value at exactly the pixels covered by some
burn geometry, 0 elsewhere. -/
theorem claim6_mask_alignment {α : Type} (covers : α → Affine → ℕ → ℕ → Bool)
    (shapes : List α) (img : RasterProfile) (path : String) (ex cpy : Bool)
    (burn : ℕ) (minPct : ℚ) (force : Bool) (p : RasterProfile)
    (dat : List (List ℕ)) (cp : Bool)
    (h : _create_mask covers shapes img path ex cpy burn minPct force
        = .ok (.written p dat cp)) :
    p.width = img.width ∧ p.height = img.height ∧ p.transform = img.transform
    ∧ p.crs = img.crs ∧ p.count = 1 ∧ p.dtype = "uint8" ∧ p.nodata = some 0
    ∧ dat.length = img.height ∧ (∀ row ∈ dat, row.length = img.width)
    ∧ ∀ r c, r < img.height → c < img.width →
        (dat.getD r []).getD c 0
          = if shapes.any (fun g => covers g img.transform r c) then burn else 0 := by
  unfold _create_mask at h
  split at h
  · exact absurd h (by simp)
  · dsimp only at h
    split at h
    · exact absurd h (by simp)
    · split at h
      · split at h
        next hshape =>
          rw [Except.ok.injEq, MaskResult.written.injEq] at h
          obtain ⟨hp, hdat, _⟩ := h
          subst hp
          subst hdat
          have hW := maskProfile_width img (extnameLower path)
          have hH := maskProfile_height img (extnameLower path)
          have hlen := rasterize_length covers shapes 0 burn img.transform
            (maskProfile img (extnameLower path)).width
            (maskProfile img (extnameLower path)).height
          have hwh : img.width = img.height := by
            rw [hshape.1] at hlen
            rw [hW, hH] at hlen
            exact hlen.symm
          refine ⟨hW, hH, maskProfile_transform img _, maskProfile_crs img _,
            maskProfile_count img _, maskProfile_dtype img _,
            maskProfile_nodata img _, ?_, ?_, ?_⟩
          · rw [hshape.1, hH]
          · intro row hrow
            have := rasterize_row_length covers shapes 0 burn img.transform
              (maskProfile img (extnameLower path)).width
              (maskProfile img (extnameLower path)).height row hrow
            rw [this, hH, hwh]
          · intro r c hrb hcb
            exact rasterize_entry covers shapes 0 burn img.transform _ _
              (by rw [hW, hwh]; exact hrb)
              (by rw [hH, ← hwh]; exact hcb)
        next hshape => exact absurd h (by simp)
      · exact absurd h (by simp)

/-- `0 <= a / b` for natural casts, as a rewrite for the zero-minimum
fraction gate. -/
theorem zero_min_frac (a b : ℕ) : (((a : ℚ) / (b : ℚ) ≥ (0 : ℚ))) = True :=
  eq_true (div_nonneg (Nat.cast_nonneg a) (Nat.cast_nonneg b))

/-- Witness for C6: a concrete fully covered square image. -/
theorem claim6_witness :
    _create_mask coversAll [()] img22 "mask.tif" false
        = .ok (.written maskP [[255, 255], [255, 255]] false)
    ∧ maskP.width = img22.width ∧ maskP.count = 1 ∧ maskP.nodata = some 0 := by
  have hext : extnameLower "mask.tif" = ".tif" := by decide
  have hr22 : rasterize coversAll [()] 0 255 aff0 2 2 = [[255, 255], [255, 255]] := by decide
  have h : _create_mask coversAll [()] img22 "mask.tif" false
      = .ok (.written maskP [[255, 255], [255, 255]] false) := by
    unfold _create_mask
    simp [maskProfile, img22, hext, hr22, maskP, zero_min_frac]
  have hc := claim6_mask_alignment coversAll [()] img22 "mask.tif" false false
    255 0 false maskP [[255, 255], [255, 255]] false h
  exact ⟨h, hc.1, hc.2.2.2.2.1, hc.2.2.2.2.2.2.1⟩

/-! ### Shapes of `runBuild` results -/

/-- A successful fresh build: the resolver chose `.build v`, the returned
directory is the formatted version, the rename was not blocked, the three
splits ran without exception, and the final state is the promoted staging
directory. -/
theorem runBuild_built {env : Env} {fs : FS} {d : String} {v : ℕ} {fs' : FS}
    (h : runBuild env fs = (.ok (.built d v), fs')) :
    resolve fs env = .build v ∧ d = fmtVersion v
    ∧ renameBlocked fs (fmtVersion v) = false
    ∧ ∃ subs tiles k, runSplitsAll env = (none, subs, tiles, k)
      ∧ fs' = fs.promote (busyName v) (fmtVersion v)
          { name := fmtVersion v, files := copies env, subdirs := subs, tiles := tiles } := by
  unfold runBuild at h
  split at h
  · exact absurd h (by simp)
  · split at h
    next e heq => exact absurd h (by simp)
    next d0 v0 heq => exact absurd h (by simp)
    next v0 heq =>
      unfold buildNew at h
      split at h
      next e subs tiles k hsp => exact absurd h (by simp)
      next subs tiles k hsp =>
        split at h
        next hrb => exact absurd h (by simp)
        next hrb =>
          injection h with h1 h2
          injection h1 with h3
          injection h3 with h4 h5
          subst h5
          subst h4
          exact ⟨heq, rfl, eq_false_of_ne_true hrb, subs, tiles, k, hsp, h2.symm⟩

/-- A build aborted by an exception inside the tile loop: the error is the
wrap of the loop exception, and the state is the original one with only the
staging (BUSY) directory replaced. -/
theorem runBuild_prepare_error {env : Env} {fs : FS} {e : LoopErr} {fs' : FS}
    (h : runBuild env fs = (.error (.prepare e), fs')) :
    ∃ v subs tiles k, resolve fs env = .build v
      ∧ runSplitsAll env = (some e, subs, tiles, k)
      ∧ fs' = fs.withEntry (busyName v)
          { name := busyName v, files := copies env, subdirs := subs, tiles := tiles } := by
  unfold runBuild at h
  split at h
  · exact absurd h (by simp)
  · split at h
    next e0 heq =>
      injection h with h1 h2
      injection h1 with h3
      subst h3
      exfalso
      unfold resolve at heq
      split at heq
      · split at heq
        · simp at heq
        · split at heq <;> simp at heq
      · split at heq
        · simp at heq
        · split at heq
          · simp at heq
          · split at heq <;> simp at heq
    next d0 v0 heq => exact absurd h (by simp)
    next v0 heq =>
      unfold buildNew at h
      split at h
      next e1 subs tiles k hsp =>
        injection h with h1 h2
        injection h1 with h3
        injection h3 with h4
        subst h4
        exact ⟨v0, subs, tiles, k, heq, hsp, h2.symm⟩
      next subs tiles k hsp =>
        split at h
        next hrb => exact absurd h (by simp)
        next hrb => exact absurd h (by simp)

/-- A call that did not complete a fresh build leaves the state unchanged or
replaces only a staging (BUSY) directory. -/
theorem runBuild_nonfresh_state {env : Env} {fs : FS} {r : Except BuildError Outcome}
    {fs' : FS} (h : runBuild env fs = (r, fs')) (hnf : NonFresh r) :
    fs' = fs ∨ ∃ v subs tiles, fs' = fs.withEntry (busyName v)
      { name := busyName v, files := copies env, subdirs := subs, tiles := tiles } := by
  unfold runBuild at h
  split at h
  · left
    injection h with h1 h2
    exact h2.symm
  · split at h
    next e heq =>
      left
      injection h with h1 h2
      exact h2.symm
    next d0 v0 heq =>
      left
      injection h with h1 h2
      exact h2.symm
    next v0 heq =>
      unfold buildNew at h
      split at h
      next e subs tiles k hsp =>
        right
        injection h with h1 h2
        exact ⟨v0, subs, tiles, h2.symm⟩
      next subs tiles k hsp =>
        split at h
        next hrb =>
          right
          injection h with h1 h2
          exact ⟨v0, subs, tiles, h2.symm⟩
        next hrb =>
          injection h with h1 h2
          subst h1
          cases hnf

/-- A reuse return comes from the resolver's reuse branch and leaves the
state untouched. -/
theorem runBuild_reused {env : Env} {fs : FS} {d : String} {v : ℕ} {fs' : FS}
    (h : runBuild env fs = (.ok (.reused d v), fs')) :
    resolve fs env = .reuse d v ∧ fs' = fs := by
  unfold runBuild at h
  split at h
  · exact absurd h (by simp)
  · split at h
    next e heq => exact absurd h (by simp)
    next d0 v0 heq =>
      injection h with h1 h2
      injection h1 with h3
      injection h3 with h4 h5
      subst h4
      subst h5
      exact ⟨heq, h2.symm⟩
    next v0 heq =>
      unfold buildNew at h
      split at h
      next e subs tiles k hsp => exact absurd h (by simp)
      next subs tiles k hsp =>
        split at h
        next hrb => exact absurd h (by simp)
        next hrb => exact absurd h (by simp)

/-- When both input files exist, a reuse result of the resolver is returned
as-is with no state change. -/
theorem runBuild_of_reuse {env : Env} {fs : FS} {d : String} {v : ℕ}
    (hll : env.llExists = true) (hld : env.ldExists = true)
    (hr : resolve fs env = .reuse d v) :
    runBuild env fs = (.ok (.reused d v), fs) := by
  unfold runBuild
  rw [if_neg (by simp [hll, hld]), hr]

/-! ### Preservation of non-BUSY directories -/

/-- The candidate predicate of line 91-93, on one name. -/
theorem candB_not_busy {n : String}
    (h : (digitLead n && !(pyEndsWith n "_BUSY")) = true) :
    pyEndsWith n "_BUSY" = false := by
  by_cases hpb : pyEndsWith n "_BUSY" = true
  · rw [hpb] at h
    simp at h
  · exact eq_false_of_ne_true hpb

theorem filter_name_map (fs : List Entry) (p : String → Bool) :
    (fs.filter (fun e => p e.name)).map Entry.name = (fs.map Entry.name).filter p := by
  induction fs with
  | nil => rfl
  | cons e es ih =>
    by_cases h : p e.name = true
    · rw [List.filter_cons, if_pos h, List.map_cons, List.map_cons, List.filter_cons,
        if_pos h, ih]
    · rw [List.filter_cons, if_neg h, List.map_cons, List.filter_cons, if_neg h, ih]

theorem candNames_withEntry (fs : FS) (name : String) (e : Entry)
    (hb : pyEndsWith name "_BUSY" = true) (heb : pyEndsWith e.name "_BUSY" = true) :
    candNames (fs.withEntry name e) = candNames fs := by
  unfold FS.withEntry candNames
  rw [List.map_append, List.filter_append]
  have h1 : ([e].map Entry.name).filter (fun n => digitLead n && !(pyEndsWith n "_BUSY"))
      = [] := by
    simp [heb]
  rw [h1, List.append_nil]
  have h2 : (List.filter (fun x => x.name ≠ name) fs).map Entry.name
      = (fs.map Entry.name).filter (fun n => decide (n ≠ name)) :=
    filter_name_map fs (fun n => decide (n ≠ name))
  rw [h2, List.filter_filter]
  apply List.filter_congr
  intro n _
  by_cases h : (digitLead n && !(pyEndsWith n "_BUSY")) = true
  · have hne : n ≠ name := by
      intro hcontra
      rw [hcontra, hb] at h
      simp at h
    simp [h, hne]
  · rw [Bool.not_eq_true] at h
    simp [h]

theorem filter_nonbusy_withEntry (fs : FS) (name : String) (e : Entry)
    (hb : pyEndsWith name "_BUSY" = true) (heb : pyEndsWith e.name "_BUSY" = true) :
    (fs.withEntry name e).filter (fun en => !(pyEndsWith en.name "_BUSY"))
      = fs.filter (fun en => !(pyEndsWith en.name "_BUSY")) := by
  unfold FS.withEntry
  rw [List.filter_append]
  have h1 : [e].filter (fun en => !(pyEndsWith en.name "_BUSY")) = [] := by
    simp [heb]
  rw [h1, List.append_nil, List.filter_filter]
  apply List.filter_congr
  intro x _
  by_cases h : pyEndsWith x.name "_BUSY" = true
  · simp [h]
  · rw [Bool.not_eq_true] at h
    have hne : x.name ≠ name := by
      intro hcontra
      rw [hcontra, hb] at h
      simp at h
    simp [h, hne]

theorem mem_withEntry_of_nonbusy {fs : FS} {name : String} {E x : Entry}
    (hx : x ∈ fs) (hxnb : pyEndsWith x.name "_BUSY" = false)
    (hb : pyEndsWith name "_BUSY" = true) :
    x ∈ fs.withEntry name E := by
  unfold FS.withEntry
  apply List.mem_append_left
  rw [List.mem_filter]
  refine ⟨hx, ?_⟩
  rw [decide_eq_true_eq]
  intro heq
  rw [heq, hb] at hxnb
  simp at hxnb

/-- Through failed and reuse calls, the candidate directory list is
unchanged and non-BUSY directory entries persist. -/
theorem reaches_preserves {fs₁ fs₂ : FS} (h : Reaches fs₁ fs₂) :
    candNames fs₂ = candNames fs₁
    ∧ ∀ x ∈ fs₁, pyEndsWith x.name "_BUSY" = false → x ∈ fs₂ := by
  induction h with
  | refl fs => exact ⟨rfl, fun x hx _ => hx⟩
  | step env a b c r hrun hnf hbc ih =>
    rcases runBuild_nonfresh_state hrun hnf with heq | ⟨v, subs, tiles, heq⟩
    · subst heq
      exact ih
    · subst heq
      refine ⟨?_, ?_⟩
      · rw [ih.1, candNames_withEntry _ _ _ (busyName_isBusy v) (busyName_isBusy v)]
      · intro x hx hnb
        exact ih.2 x (mem_withEntry_of_nonbusy hx hnb (busyName_isBusy v)) hnb

/-! ### The promoted version directory among the candidates -/

theorem candB_fmtVersion (v : ℕ) :
    (digitLead (fmtVersion v) && !(pyEndsWith (fmtVersion v) "_BUSY")) = true := by
  rw [digitLead_fmtVersion, fmtVersion_not_busy]
  rfl

theorem fmtVersion_mem_candNames_promote (fs : FS) (v : ℕ) (E : Entry)
    (hE : E.name = fmtVersion v) :
    fmtVersion v ∈ candNames (fs.promote (busyName v) (fmtVersion v) E) := by
  unfold FS.promote candNames
  rw [List.map_append, List.filter_append]
  apply List.mem_append_right
  simp [hE, candB_fmtVersion v]

theorem mem_candNames_promote {fs : FS} {v : ℕ} {E : Entry} {s : String}
    (hE : E.name = fmtVersion v)
    (hs : s ∈ candNames (fs.promote (busyName v) (fmtVersion v) E)) :
    s = fmtVersion v ∨ s ∈ candNames fs := by
  unfold FS.promote candNames at hs
  rw [List.map_append, List.filter_append, List.mem_append] at hs
  rcases hs with hs | hs
  · right
    rw [List.mem_filter] at hs
    obtain ⟨hmem, hcand⟩ := hs
    rw [List.mem_map] at hmem
    obtain ⟨x, hxmem, hxname⟩ := hmem
    rw [List.mem_filter] at hxmem
    unfold candNames
    rw [List.mem_filter]
    exact ⟨List.mem_map.mpr ⟨x, hxmem.1, hxname⟩, hcand⟩
  · left
    simp only [List.map_cons, List.map_nil] at hs
    rw [List.mem_filter] at hs
    have := hs.1
    simp only [List.mem_singleton] at this
    rw [this, hE]

theorem mem_candNames_promote_of_mem {fs : FS} {v : ℕ} {E : Entry} {t : String}
    (ht : t ∈ candNames fs) (htne : t ≠ fmtVersion v) :
    t ∈ candNames (fs.promote (busyName v) (fmtVersion v) E) := by
  unfold candNames at ht
  rw [List.mem_filter] at ht
  obtain ⟨hmem, hcand⟩ := ht
  rw [List.mem_map] at hmem
  obtain ⟨x, hxmem, hxname⟩ := hmem
  have htnb : pyEndsWith t "_BUSY" = false := candB_not_busy hcand
  have htnbusy : t ≠ busyName v := by
    intro hcontra
    rw [hcontra, busyName_isBusy v] at htnb
    simp at htnb
  unfold FS.promote candNames
  rw [List.map_append, List.filter_append]
  apply List.mem_append_left
  rw [List.mem_filter]
  refine ⟨?_, hcand⟩
  rw [List.mem_map]
  refine ⟨x, ?_, hxname⟩
  rw [List.mem_filter]
  refine ⟨hxmem, ?_⟩
  rw [hxname]
  simp [htnbusy, htne]

/-! ### The copied input files keep the staged directory non-empty -/

theorem copies_ne_nil (env : Env) : copies env ≠ [] := by
  simp [copies, setFile]

theorem entry_copies_not_empty (env : Env) (n : String) (subs tiles : List String) :
    Entry.isEmpty { name := n, files := copies env, subdirs := subs, tiles := tiles }
      = false := by
  unfold Entry.isEmpty
  have h := copies_ne_nil env
  simp only [List.isEmpty_iff]
  simp [h]

theorem renameBlocked_of_mem {fs : FS} {x : Entry} {n : String}
    (hx : x ∈ fs) (hname : x.name = n) (hne : x.isEmpty = false) :
    renameBlocked fs n = true := by
  unfold renameBlocked
  rw [List.any_eq_true]
  refine ⟨x, hx, ?_⟩
  simp [hname, hne]

theorem promoted_entry_mem {fs : FS} {v : ℕ} (E : Entry) :
    E ∈ fs.promote (busyName v) (fmtVersion v) E := by
  unfold FS.promote
  exact List.mem_append_right _ (List.mem_singleton_self E)

/-- C1: when an exception is raised during the tile fetch / mask loop, the
call returns the exception wrapped with the "Error preparing dataset!"
context, no directory without the BUSY suffix is created or modified, and
the BUSY staging directory of the resolved version is on disk; and the
rename producing a final (non-BUSY) version directory happens only when all
three splits completed without exception. -/
theorem claim1_atomic_staging (env : Env) (fs : FS) :
    (∀ e : LoopErr, (runBuild env fs).1 = .error (.prepare e) →
      (runBuild env fs).2.filter (fun en => !(pyEndsWith en.name "_BUSY"))
          = fs.filter (fun en => !(pyEndsWith en.name "_BUSY"))
      ∧ (∃ v, resolve fs env = .build v
          ∧ busyName v ∈ (runBuild env fs).2.map Entry.name)
      ∧ (BuildError.prepare e).message = "Error preparing dataset!")
    ∧ (∀ d v, (runBuild env fs).1 = .ok (.built d v) →
        (runSplitsAll env).1 = none ∧ d = fmtVersion v) := by
  constructor
  · intro e h
    obtain ⟨v, subs, tiles, k, hres, hsp, hfs⟩ :=
      runBuild_prepare_error (Prod.ext h rfl : runBuild env fs = (.error (.prepare e), (runBuild env fs).2))
    refine ⟨?_, ⟨v, hres, ?_⟩, rfl⟩
    · rw [hfs]
      exact filter_nonbusy_withEntry fs (busyName v) _ (busyName_isBusy v) (busyName_isBusy v)
    · rw [hfs]
      unfold FS.withEntry
      rw [List.map_append, List.mem_append]
      right
      simp
  · intro d v h
    obtain ⟨hres, hd, hrb, subs, tiles, k, hsp, hfs⟩ :=
      runBuild_built (Prod.ext h rfl : runBuild env fs = (.ok (.built d v), (runBuild env fs).2))
    exact ⟨by rw [hsp], hd⟩

/-- Witness for C1: one train location whose fetch raises, in an empty
training directory. -/
theorem claim1_witness :
    (runBuild envW []).1 = .error (.prepare .fetchFailed)
    ∧ (runBuild envW []).2.filter (fun en => !(pyEndsWith en.name "_BUSY"))
        = ([] : FS).filter (fun en => !(pyEndsWith en.name "_BUSY"))
    ∧ (BuildError.prepare .fetchFailed).message = "Error preparing dataset!" := by
  have h : (runBuild envW []).1 = .error (.prepare .fetchFailed) := by decide
  have hc := (claim1_atomic_staging envW []).1 LoopErr.fetchFailed h
  exact ⟨h, hc.1, hc.2.2⟩

/-- C3 (counterexample): the claim fails on the code in both of its
aspects.  First, "most recent version directory": versions 99 and 100 exist
and the numerically most recent directory (100) holds byte-identical copies
of both current inputs, so the claim demands a skip returning ("100", 100)
without touching storage; the code instead compares against the
lexicographically greatest name "99", starts a rebuild as version 100,
creates `100_BUSY`, and fails renaming onto the existing directory `100`.
Second, "a renamed but content-unchanged input must still short-circuit":
the most recent directory `01` holds a byte-identical copy of the current
label-locations input under its former basename `loc.gpkg`, but the input
was renamed to `loc2.gpkg`; lines 115-124 look the copy up under the
current basename, so the existence check fails and the code builds a new
version 2 directory instead of returning ("01", 1). -/
theorem claim3_counterexample :
    (specMostRecent fsC3 = some "100"
      ∧ FS.find fsC3 "100" = some entry100
      ∧ entry100.getFile envA.llName = some envA.llContent
      ∧ entry100.getFile envA.ldName = some envA.ldContent
      ∧ (runBuild envA fsC3).1 = .error .renameTargetExists
      ∧ (runBuild envA fsC3).2 ≠ fsC3)
    ∧ (specMostRecent fsR = some "01"
      ∧ FS.find fsR "01" = some entry01
      ∧ envRen.llName = "loc2.gpkg"
      ∧ entry01.getFile "loc.gpkg" = some envRen.llContent
      ∧ entry01.getFile envRen.llName = none
      ∧ entry01.getFile envRen.ldName = some envRen.ldContent
      ∧ (runBuild envRen fsR).1 = .ok (.built "02" 2)
      ∧ (runBuild envRen fsR).2 ≠ fsR) := by decide

/-- The resolver reuses exactly the lexicographically greatest digit-leading
non-BUSY directory, when its name parses and it holds content-identical
copies of both inputs. -/
theorem resolve_reuse_iff (fs : FS) (env : Env) (d : String) (v : ℕ) :
    resolve fs env = .reuse d v ↔
      ∃ c cs e, candNames fs = c :: cs ∧ strListMax1 c cs = d ∧ pyInt? d = some v
        ∧ FS.find fs d = some e
        ∧ e.getFile env.llName = some env.llContent
        ∧ e.getFile env.ldName = some env.ldContent := by
  constructor
  · intro h
    unfold resolve at h
    split at h
    next x hc =>
      split at h
      · simp at h
      · split at h
        · simp at h
        · simp at h
    next x c cs hc =>
      split at h
      next x2 hp => simp at h
      next x2 m hp =>
        split at h
        next x3 hf => simp at h
        next x3 e hf =>
          split at h
          next hcmp =>
            rw [ResolveResult.reuse.injEq] at h
            obtain ⟨h1, h2⟩ := h
            subst h1
            subst h2
            exact ⟨c, cs, e, hc, rfl, hp, hf, hcmp.1, hcmp.2⟩
          next hcmp => simp at h
  · rintro ⟨c, cs, e, hc, hmax, hpy, hf, h1, h2⟩
    unfold resolve
    split
    next x heq =>
      rw [heq] at hc
      exact absurd hc (by simp)
    next x c' cs' heq =>
      rw [heq] at hc
      obtain ⟨hc1, hc2⟩ := List.cons.inj hc
      subst hc1
      subst hc2
      rw [hmax]
      split
      next x2 heq2 =>
        rw [hpy] at heq2
        simp at heq2
      next x2 m heq2 =>
        rw [hpy] at heq2
        obtain hm := Option.some.inj heq2
        split
        next x3 heq3 =>
          rw [hf] at heq3
          simp at heq3
        next x3 e' heq3 =>
          rw [hf] at heq3
          obtain he := Option.some.inj heq3
          subst he
          rw [if_pos ⟨h1, h2⟩, ← hm]

/-- C3 (amended): the build is skipped, returning the existing directory
and version without touching storage, if and only if the LEXICOGRAPHICALLY
greatest digit-leading non-BUSY directory - the code's notion of "most
recent", which coincides with numeric recency only while all version names
have equal length (e.g. the two-digit names of versions 1-99) - has a
numeric name and holds, under the CURRENT basenames of the two input
files, copies that are byte-identical to the current inputs.  The content
comparison is exact (bytes, not timestamps), but because the copies are
looked up by the current basename, an input file that was renamed does
not short-circuit even when its content is unchanged.  Calling the
builder again after a successful build with byte-identical, un-renamed
input files produces no new directory and returns the same version,
provided the directory the first call created is that lexicographic
maximum. -/
theorem claim3_amended_reuse (env : Env) (fs : FS) :
    (∀ d v, env.llExists = true → env.ldExists = true →
      (runBuild env fs = (.ok (.reused d v), fs) ↔
        ∃ c cs e, candNames fs = c :: cs ∧ strListMax1 c cs = d ∧ pyInt? d = some v
          ∧ FS.find fs d = some e
          ∧ e.getFile env.llName = some env.llContent
          ∧ e.getFile env.ldName = some env.ldContent))
    ∧ (∀ d v fs₁, runBuild env fs = (.ok (.built d v), fs₁) →
        candMax fs₁ = some (fmtVersion v) →
        env.llName ≠ env.ldName →
        env.llExists = true → env.ldExists = true →
        runBuild env fs₁ = (.ok (.reused (fmtVersion v) v), fs₁)) := by
  constructor
  · intro d v hll hld
    constructor
    · intro h
      exact (resolve_reuse_iff fs env d v).mp (runBuild_reused h).1
    · intro hcond
      exact runBuild_of_reuse hll hld ((resolve_reuse_iff fs env d v).mpr hcond)
  · intro d v fs₁ h1 hmax hne hll hld
    obtain ⟨hres, hd, hrb, subs, tiles, k, hsp, hfs1⟩ := runBuild_built h1
    have hfind : FS.find fs₁ (fmtVersion v)
        = some { name := fmtVersion v, files := copies env,
                 subdirs := subs, tiles := tiles } := by
      rw [hfs1]
      unfold FS.find FS.promote
      rw [List.find?_append]
      have hnone : List.find? (fun e => decide (e.name = fmtVersion v))
          (List.filter (fun x => decide (x.name ≠ busyName v)
            && decide (x.name ≠ fmtVersion v)) fs) = none := by
        rw [List.find?_eq_none]
        intro x hx
        rw [List.mem_filter] at hx
        have h2 := hx.2
        rw [Bool.and_eq_true, decide_eq_true_eq, decide_eq_true_eq] at h2
        simp [h2.2]
      rw [hnone]
      simp
    have hgll : Entry.getFile
        { name := fmtVersion v, files := copies env, subdirs := subs, tiles := tiles }
        env.llName = some env.llContent := by
      unfold Entry.getFile copies setFile
      simp [List.find?_cons, hne]
    have hgld : Entry.getFile
        { name := fmtVersion v, files := copies env, subdirs := subs, tiles := tiles }
        env.ldName = some env.ldContent := by
      unfold Entry.getFile copies setFile
      simp [List.find?_cons, Ne.symm hne]
    obtain ⟨c, cs, hc, hm⟩ : ∃ c cs, candNames fs₁ = c :: cs
        ∧ strListMax1 c cs = fmtVersion v := by
      unfold candMax at hmax
      split at hmax
      · simp at hmax
      next c cs heq => exact ⟨c, cs, heq, Option.some.inj hmax⟩
    exact runBuild_of_reuse hll hld
      ((resolve_reuse_iff fs₁ env (fmtVersion v) v).mpr
        ⟨c, cs, _, hc, hm, pyInt?_fmtVersion v, hfind, hgll, hgld⟩)

/-- Witness for the amended C3: one existing version holding exact copies
of the inputs is reused without touching storage. -/
theorem claim3_amended_witness :
    runBuild envA fsR = (.ok (.reused "01" 1), fsR) := by
  apply ((claim3_amended_reuse envA fsR).1 "01" 1 rfl rfl).mpr
  refine ⟨"01", [],
    { name := "01", files := [("loc.gpkg", "LOC1"), ("data.gpkg", "DATA1")],
      subdirs := [], tiles := [] }, ?_, ?_, ?_, ?_, ?_, ?_⟩ <;> decide

/-- C2: across any two successful fresh builds against the same training
directory - with arbitrary failed or reuse calls in between, the builder
being the only writer - the returned version numbers strictly increase
(in fact the later one is exactly the earlier one plus one, so numbers are
never assigned twice). -/
theorem claim2_version_monotonic (env₁ env₂ : Env) (fs fs₁ fs₂ fs₃ : FS)
    (d₁ d₂ : String) (v₁ v₂ : ℕ)
    (h1 : runBuild env₁ fs = (.ok (.built d₁ v₁), fs₁))
    (h2 : Reaches fs₁ fs₂)
    (h3 : runBuild env₂ fs₂ = (.ok (.built d₂ v₂), fs₃)) :
    v₁ < v₂ ∧ v₂ = v₁ + 1 := by
  obtain ⟨hres1, hd1, hrb1, subs1, tiles1, k1, hsp1, hfs1⟩ := runBuild_built h1
  obtain ⟨hres2, hd2, hrb2, subs2, tiles2, k2, hsp2, hfs3⟩ := runBuild_built h3
  obtain ⟨hcands, hmem⟩ := reaches_preserves h2
  have hfmt_mem₁ : fmtVersion v₁ ∈ candNames fs₁ := by
    rw [hfs1]
    exact fmtVersion_mem_candNames_promote fs v₁ _ rfl
  have hfmt_mem₂ : fmtVersion v₁ ∈ candNames fs₂ := by
    rw [hcands]
    exact hfmt_mem₁
  rcases resolve_build_cases fs₂ env₂ v₂ hres2 with
    ⟨hc2, _, _⟩ | ⟨hc2, _⟩ | ⟨c, cs, m, hc2, hp2, hv2⟩
  · rw [hc2] at hfmt_mem₂
    simp at hfmt_mem₂
  · rw [hc2] at hfmt_mem₂
    simp at hfmt_mem₂
  · have hM_ub : ∀ y ∈ candNames fs₂, pyStrLe y (strListMax1 c cs) = true := by
      intro y hy
      rw [hc2] at hy
      exact strListMax1_ub c cs y hy
    have hM_cases : strListMax1 c cs = fmtVersion v₁
        ∨ strListMax1 c cs ∈ candNames fs := by
      have hin : strListMax1 c cs ∈ candNames fs₁ := by
        rw [← hcands, hc2]
        exact strListMax1_mem c cs
      rw [hfs1] at hin
      exact mem_candNames_promote rfl hin
    rcases hM_cases with hMeq | hMfs
    · rw [hMeq, pyInt?_fmtVersion v₁] at hp2
      have hm := Option.some.inj hp2
      omega
    · rcases resolve_build_cases fs env₁ v₁ hres1 with
        ⟨hc1, _, _⟩ | ⟨hc1, _⟩ | ⟨c₁, cs₁, m₁, hc1, hp1, hv1⟩
      · rw [hc1] at hMfs
        simp at hMfs
      · rw [hc1] at hMfs
        simp at hMfs
      · exfalso
        have hT_ne : strListMax1 c₁ cs₁ ≠ fmtVersion v₁ := by
          intro hcontra
          rw [hcontra, pyInt?_fmtVersion v₁] at hp1
          have := Option.some.inj hp1
          omega
        have hT_mem_fs : strListMax1 c₁ cs₁ ∈ candNames fs := by
          rw [hc1]
          exact strListMax1_mem c₁ cs₁
        have hT_mem₂ : strListMax1 c₁ cs₁ ∈ candNames fs₂ := by
          rw [hcands, hfs1]
          exact mem_candNames_promote_of_mem hT_mem_fs hT_ne
        have hMT : pyStrLe (strListMax1 c cs) (strListMax1 c₁ cs₁) = true := by
          have hMfs' := hMfs
          rw [hc1] at hMfs'
          exact strListMax1_ub c₁ cs₁ _ hMfs'
        have hTM : pyStrLe (strListMax1 c₁ cs₁) (strListMax1 c cs) = true :=
          hM_ub _ hT_mem₂
        have hMeqT : strListMax1 c cs = strListMax1 c₁ cs₁ :=
          pyStrLe_antisymm hMT hTM
        rw [hMeqT, hp1] at hp2
        have hmm := Option.some.inj hp2
        have hv21 : v₂ = v₁ := by omega
        have hE₁_mem₁ :
            ({ name := fmtVersion v₁, files := copies env₁,
               subdirs := subs1, tiles := tiles1 } : Entry) ∈ fs₁ := by
          rw [hfs1]
          exact promoted_entry_mem _
        have hE₁_mem₂ :
            ({ name := fmtVersion v₁, files := copies env₁,
               subdirs := subs1, tiles := tiles1 } : Entry) ∈ fs₂ :=
          hmem _ hE₁_mem₁ (fmtVersion_not_busy v₁)
        have hblocked : renameBlocked fs₂ (fmtVersion v₁) = true :=
          renameBlocked_of_mem hE₁_mem₂ rfl (entry_copies_not_empty env₁ _ _ _)
        rw [hv21, hblocked] at hrb2
        simp at hrb2

/-- Witness for C2: an empty training directory, a first build creating
version 1, then a build with a changed input creating version 2. -/
theorem claim2_witness : (1 : ℕ) < 2 ∧ 2 = 1 + 1 :=
  claim2_version_monotonic envA envB [] fs1W fs1W fs2W "01" "02" 1 2
    (by decide) (Reaches.refl fs1W) (by decide)

end Orthoseg
